import Mathlib

/-!
Verification of the offline/online merge and sync core of `deacon-os.py`.

We embed the JSON-like Python values the program manipulates as an
inductive `Value` type, translate the data-management functions
(`merge_data`, `load_local_data`, `save_local_data`, `save_data`,
`load_data`, `refresh_list`, `generate_daily_report`) into Lean, and
prove the specification's claims about them.
-/

namespace DeaconOS

/-- Primitive JSON/Python values: `None`, booleans, integers, strings. -/
inductive Prim where
  | null
  | pbool (b : Bool)
  | pint (n : Int)
  | pstr (s : String)
deriving DecidableEq, Repr

/-- JSON-like values as manipulated by the Python code: primitives,
lists, and dictionaries (association lists with string keys; Python
dictionaries have unique keys, and we compare them structurally). -/
inductive Value where
  | prim (p : Prim)
  | list (elems : List Value)
  | dict (fields : List (String × Value))
deriving Repr

mutual

/-- Structural (Python `==`) equality on values is decidable. -/
def Value.decEq : (a b : Value) → Decidable (a = b)
  | .prim a, .prim b =>
      if h : a = b then .isTrue (by rw [h])
      else .isFalse (by intro hc; injection hc with hc; exact h hc)
  | .list xs, .list ys =>
      match Value.decEqList xs ys with
      | .isTrue h => .isTrue (by rw [h])
      | .isFalse h => .isFalse (by intro hc; injection hc with hc; exact h hc)
  | .dict fs, .dict gs =>
      match Value.decEqFields fs gs with
      | .isTrue h => .isTrue (by rw [h])
      | .isFalse h => .isFalse (by intro hc; injection hc with hc; exact h hc)
  | .prim _, .list _ => .isFalse (fun h => Value.noConfusion h)
  | .prim _, .dict _ => .isFalse (fun h => Value.noConfusion h)
  | .list _, .prim _ => .isFalse (fun h => Value.noConfusion h)
  | .list _, .dict _ => .isFalse (fun h => Value.noConfusion h)
  | .dict _, .prim _ => .isFalse (fun h => Value.noConfusion h)
  | .dict _, .list _ => .isFalse (fun h => Value.noConfusion h)

def Value.decEqList : (xs ys : List Value) → Decidable (xs = ys)
  | [], [] => .isTrue rfl
  | x :: xs, y :: ys =>
      match Value.decEq x y, Value.decEqList xs ys with
      | .isTrue h1, .isTrue h2 => .isTrue (by rw [h1, h2])
      | .isFalse h1, _ =>
          .isFalse (by intro hc; injection hc with hc _; exact h1 hc)
      | _, .isFalse h2 =>
          .isFalse (by intro hc; injection hc with _ hc; exact h2 hc)
  | [], _ :: _ => .isFalse (fun h => List.noConfusion h)
  | _ :: _, [] => .isFalse (fun h => List.noConfusion h)

def Value.decEqFields : (fs gs : List (String × Value)) → Decidable (fs = gs)
  | [], [] => .isTrue rfl
  | (k, v) :: fs, (l, w) :: gs =>
      if hk : k = l then
        match Value.decEq v w, Value.decEqFields fs gs with
        | .isTrue h1, .isTrue h2 => .isTrue (by rw [hk, h1, h2])
        | .isFalse h1, _ =>
            .isFalse (by
              intro hc
              injection hc with hc1 _
              injection hc1 with _ hc1
              exact h1 hc1)
        | _, .isFalse h2 =>
            .isFalse (by intro hc; injection hc with _ hc; exact h2 hc)
      else
        .isFalse (by
          intro hc
          injection hc with hc1 _
          injection hc1 with hc1 _
          exact hk hc1)
  | [], _ :: _ => .isFalse (fun h => List.noConfusion h)
  | _ :: _, [] => .isFalse (fun h => List.noConfusion h)

end

instance : DecidableEq Value := Value.decEq

namespace Value

/-- `isinstance(v, dict)`. -/
def isDict : Value → Bool
  | .dict _ => true
  | _ => false

/-- `isinstance(v, list)`. -/
def isList : Value → Bool
  | .list _ => true
  | _ => false

/-- Lookup of a key in a dictionary value; `none` when the key is
absent or the value is not a dictionary. -/
def lookupField (v : Value) (key : String) : Option Value :=
  match v with
  | .dict fs => fs.lookup key
  | _ => none

/-- Python `v.get(key)`: the value stored under `key`, or `None` when
absent (Python's `dict.get` default).  Total here; the code only calls
it on values guarded by `isinstance(v, dict)`. -/
def get (v : Value) (key : String) : Value :=
  (v.lookupField key).getD (.prim .null)

/-- Python `v.get(key, default)`. -/
def getD (v : Value) (key : String) (default : Value) : Value :=
  (v.lookupField key).getD default

/-- Python `v[key]` subscript on a dictionary.  Total here (yielding
`None` where Python would raise `KeyError`); the claims only exercise
it on records where the key is present. -/
def getItem (v : Value) (key : String) : Value :=
  (v.lookupField key).getD (.prim .null)

/-- Python truthiness of a value, as used in `if v:` tests. -/
def truthy : Value → Bool
  | .prim .null => false
  | .prim (.pbool b) => b
  | .prim (.pint n) => n != 0
  | .prim (.pstr s) => s ≠ ""
  | .list xs => !xs.isEmpty
  | .dict fs => !fs.isEmpty

/-- The coercion `if not isinstance(v, list): v = []` applied at the
top of `merge_data`: a non-list value is replaced by the empty list. -/
def asPyList : Value → List Value
  | .list xs => xs
  | _ => []

end Value

/-- The name-set `{p.get("name") for p in server_data if isinstance(p, dict)}`
built at the top of `merge_data` (a list with the same membership as the
Python set). -/
def server_names (sd : List Value) : List Value :=
  (sd.filter Value.isDict).map (fun p => p.get "name")

/-- The condition under which the loop body of `merge_data` appends a
local entry: `isinstance(local_proj, dict) and local_proj.get("name")
not in server_names`. -/
def keepLocal (names : List Value) (p : Value) : Bool :=
  p.isDict && !(names.contains (p.get "name"))

/-- `merge_data(server_data, local_data)` from `deacon-os.py`:
coerce non-list inputs to `[]`, build the remote name-set, then walk
`local_data` appending each dict entry whose name is absent from that
set (the set is never updated), tracking whether anything was appended. -/
def merge_data (server_data local_data : Value) : List Value × Bool :=
  let sd := server_data.asPyList
  let ld := local_data.asPyList
  let names := server_names sd
  ld.foldl
    (fun acc local_proj =>
      if keepLocal names local_proj then (acc.1 ++ [local_proj], true) else acc)
    (sd, false)

/-- The observable states of the on-disk local cache file
`projects_offline.json`. -/
inductive FileState where
  | absent
  | unreadable
  | invalidData
  | valid (v : Value)
deriving DecidableEq, Repr

/-- `load_local_data()`: if the file exists, parse it, returning `[]`
on any exception (unreadable file or invalid JSON); if it does not
exist, return `[]`. -/
def load_local_data : FileState → Value
  | .valid v => v
  | _ => .list []

/-- `save_local_data(data)`: serialize `data` to the cache file
(overwriting it).  `json.dump` followed by `json.load` is the identity
on the values our domain represents, so the resulting file state holds
`data` itself.  (A failing write pops an error dialog; the claims
concern the successful write path.) -/
def save_local_data (data : Value) : FileState :=
  .valid data

/-- Outcome of the `requests.post` in `save_data`: either the push
succeeds (2xx status), or a `RequestException` is raised (connection
failure, timeout, or `raise_for_status` on a non-success status). -/
inductive PushOutcome where
  | ok
  | fail
deriving DecidableEq, Repr

/-- The status-label texts the sync code can leave behind. -/
inductive Status where
  | onlineSynced
  | offlineLocalMode
  | offlineSavedLocally
deriving DecidableEq, Repr

/-- `save_data(force_api_sync)`: POST the working set; on success set
status Online (Synced) and remove the cache file; on `RequestException`
write the working set to the cache file and set status Offline (Saved
Locally).  Returns the resulting status and cache-file state. -/
def save_data (push : PushOutcome) (projects_data : Value) (_cache : FileState) :
    Status × FileState :=
  match push with
  | .ok => (.onlineSynced, .absent)
  | .fail => (.offlineSavedLocally, save_local_data projects_data)

/-- Outcome of the `requests.get` + `raise_for_status` + `response.json()`
sequence in `load_data`.  The first four constructors raise
`RequestException` or `ValueError` and are caught by the `except`
clause; `okBody v` is a success response whose body parsed as the JSON
value `v` (not necessarily a list). -/
inductive FetchResult where
  | connFailure
  | timeout
  | nonSuccessStatus
  | invalidBody
  | okBody (v : Value)
deriving DecidableEq, Repr

/-- Result of a `load_data` run: the in-memory working set
(`projects_data`), the final status label, and the final cache-file
state. -/
structure LoadResult where
  projects : Value
  status : Status
  cache : FileState
deriving DecidableEq, Repr

/-- `load_data()`: fetch the remote list; on success merge it with the
local cache, and if the merge appended anything, force-push the merged
set (`save_data(force_api_sync=True)`) and then delete the cache file
if it exists; finally set status Online (Synced).  On
`RequestException` or `ValueError`, fall back to the local cache and
set status Offline (Local Mode).  `push` is the outcome of the POST
issued by the nested `save_data` call, when that call happens. -/
def load_data (fetch : FetchResult) (push : PushOutcome) (cache : FileState) :
    LoadResult :=
  match fetch with
  | .okBody server_data =>
      let local_data := load_local_data cache
      let merged := merge_data server_data local_data
      let projects_data := Value.list merged.1
      if merged.2 then
        let afterSave := save_data push projects_data cache
        -- `if os.path.exists(LOCAL_FILE): os.remove(LOCAL_FILE)`:
        -- whatever `save_data` left on disk, the file is gone afterwards.
        { projects := projects_data, status := .onlineSynced,
          cache := match afterSave.2 with | _ => .absent }
      else
        { projects := projects_data, status := .onlineSynced, cache := cache }
  | _ =>
      { projects := load_local_data cache, status := .offlineLocalMode,
        cache := cache }

/-- `refresh_list()`: when the working set is a list, each project is
displayed as `f"{status} | {name}"`; we model the displayed item as the
pair (status marker, name value), with marker `"✅"` when
`proj.get("completed", False)` is truthy and `"⏳"` otherwise, and name
`proj.get("name", "Unnamed Project")`. -/
def refresh_list (projects_data : Value) : List (String × Value) :=
  match projects_data with
  | .list ps =>
      ps.map (fun proj =>
        ((if (proj.getD "completed" (.prim (.pbool false))).truthy
          then "✅" else "⏳"),
         proj.getD "name" (.prim (.pstr "Unnamed Project"))))
  | _ => []

/-- The two name lists computed at the top of `generate_daily_report()`:
`completed = [p['name'] for p in projects_data if p.get('completed', True)]`
and
`pending = [p['name'] for p in projects_data if not p.get('completed', False)]`.
Note the `True` default in the `completed` comprehension. -/
def generate_daily_report (projects_data : List Value) :
    List Value × List Value :=
  ((projects_data.filter
      (fun p => (p.getD "completed" (.prim (.pbool true))).truthy)).map
      (fun p => p.getItem "name"),
   (projects_data.filter
      (fun p => !(p.getD "completed" (.prim (.pbool false))).truthy)).map
      (fun p => p.getItem "name"))

/-- Python hashability of the values handled here: `None`, booleans,
integers and strings are hashable; lists and dicts are not, so using
one as a set element raises `TypeError`. -/
def Value.hashable : Value → Bool
  | .prim _ => true
  | .list _ => false
  | .dict _ => false

/-- Whether executing `merge_data(server_data, local_data)` raises an
uncaught `TypeError`: the set comprehension
`{p.get("name") for p in server_data if isinstance(p, dict)}` hashes
the name of every dict entry of the (coerced) remote list, and the loop
test `local_proj.get("name") not in server_names` hashes the name of
every dict entry of the (coerced) local list, so the call raises iff
either side holds a dict whose name value is an unhashable list or
dict. -/
def merge_data_raises (server_data local_data : Value) : Bool :=
  ((server_data.asPyList.filter Value.isDict).map (fun p => p.get "name")).any
      (fun n => !n.hashable)
  || ((local_data.asPyList.filter Value.isDict).map (fun p => p.get "name")).any
      (fun n => !n.hashable)

/-- `load_data()` including its uncaught-exception path.  `TypeError`
is not in the `except (RequestException, ValueError)` tuple, so when
`merge_data` raises on an unhashable name (see `merge_data_raises`),
`load_data` dies without reaching either status assignment, leaving the
label stuck at Syncing: modelled as `none`.  In every other case it
behaves as `load_data`. -/
def load_data_outcome (fetch : FetchResult) (push : PushOutcome)
    (cache : FileState) : Option LoadResult :=
  match fetch with
  | .okBody server_data =>
      if merge_data_raises server_data (load_local_data cache)
      then none
      else some (load_data fetch push cache)
  | _ => some (load_data fetch push cache)

/-! ## Characterization of the merge loop -/

/-- Unrolling the `for local_proj in local_data` loop of `merge_data`:
starting from any accumulator, the loop appends exactly the local
entries satisfying `keepLocal`, and the flag ends up true iff it
started true or some entry was appended. -/
theorem merge_foldl_eq (names : List Value) (ld : List Value) :
    ∀ acc : List Value × Bool,
      ld.foldl
        (fun acc local_proj =>
          if keepLocal names local_proj then (acc.1 ++ [local_proj], true) else acc)
        acc
        = (acc.1 ++ ld.filter (keepLocal names),
           acc.2 || !(ld.filter (keepLocal names)).isEmpty) := by
  induction ld with
  | nil => intro acc; simp
  | cons p rest ih =>
      intro acc
      by_cases h : keepLocal names p = true
      · simp [List.foldl_cons, h, ih, List.filter_cons]
      · simp at h
        simp [List.foldl_cons, h, ih, List.filter_cons]

/-- `merge_data` on list inputs: the result is the remote list followed
by the local entries that are dicts with a name outside the remote
name-set, and the flag is true iff that appended part is nonempty. -/
theorem merge_data_eq (sd ld : List Value) :
    merge_data (.list sd) (.list ld)
      = (sd ++ ld.filter (keepLocal (server_names sd)),
         !(ld.filter (keepLocal (server_names sd))).isEmpty) := by
  simp [merge_data, Value.asPyList, merge_foldl_eq]

/-- A record used in counterexamples and witnesses: `{"name": "a"}`. -/
def dupRecord : Value := .dict [("name", .prim (.pstr "a"))]

/-- A record missing the `completed` field: `{"name": "Write spec"}`. -/
def reportRecord : Value := .dict [("name", .prim (.pstr "Write spec"))]

/-! ## Claim theorems -/

/-- C1, counterexample: with an empty remote and a local cache holding
the same record `{"name": "a"}` twice, the merge appends both
occurrences (the result contains the record twice), so the name-set is
not updated as records are appended and the claimed collapse to the
first occurrence does not happen. -/
theorem merge_dup_local_counterexample :
    (merge_data (.list []) (.list [dupRecord, dupRecord])).1
        = [dupRecord, dupRecord]
    ∧ ((merge_data (.list []) (.list [dupRecord, dupRecord])).1).count dupRecord
        = 2 := by
  exact ⟨rfl, rfl⟩

/-- C1, amended: the merge builds the remote name-set once and never
updates it; each local dict whose name is outside that set is appended,
so when the local input holds two records with the same name absent
from the remote set, both occurrences appear in the merged result. -/
theorem merge_no_local_dedup (sd l1 l2 l3 : List Value) (d d' : Value)
    (hd : d.isDict = true) (hd' : d'.isDict = true)
    (hname : d'.get "name" = d.get "name")
    (habs : (server_names sd).contains (d.get "name") = false) :
    (merge_data (.list sd) (.list (l1 ++ d :: l2 ++ d' :: l3))).1
        = sd ++ (l1 ++ d :: l2 ++ d' :: l3).filter (keepLocal (server_names sd))
    ∧ ∃ m1 m2 m3,
        (merge_data (.list sd) (.list (l1 ++ d :: l2 ++ d' :: l3))).1
          = m1 ++ d :: m2 ++ d' :: m3 := by
  have hmem : d.get "name" ∉ server_names sd := by simpa using habs
  have hkd : keepLocal (server_names sd) d = true := by
    simp [keepLocal, hd, hmem]
  have hkd' : keepLocal (server_names sd) d' = true := by
    simp [keepLocal, hd', hname, hmem]
  refine ⟨by rw [merge_data_eq], ?_⟩
  refine ⟨sd ++ l1.filter (keepLocal (server_names sd)),
          l2.filter (keepLocal (server_names sd)),
          l3.filter (keepLocal (server_names sd)), ?_⟩
  rw [merge_data_eq]
  simp [List.filter_append, List.filter_cons, hkd, hkd']

/-- C1, witness for `merge_no_local_dedup` at the concrete input of the
counterexample. -/
theorem merge_no_local_dedup_witness :
    (dupRecord.isDict = true ∧ dupRecord.isDict = true
      ∧ dupRecord.get "name" = dupRecord.get "name"
      ∧ (server_names []).contains (dupRecord.get "name") = false)
    ∧ ((merge_data (.list []) (.list ([] ++ dupRecord :: [] ++ dupRecord :: []))).1
          = [] ++ ([] ++ dupRecord :: [] ++ dupRecord :: []).filter
              (keepLocal (server_names []))
        ∧ ∃ m1 m2 m3,
            (merge_data (.list []) (.list ([] ++ dupRecord :: [] ++ dupRecord :: []))).1
              = m1 ++ dupRecord :: m2 ++ dupRecord :: m3) :=
  ⟨⟨by decide, by decide, rfl, by decide⟩,
   merge_no_local_dedup [] [] [] [] dupRecord dupRecord
     (by decide) (by decide) rfl (by decide)⟩

/-- C2: the `merged` flag returned by `merge_data` is true iff the
merged result is strictly longer than the remote input, iff at least
one local entry was appended. -/
theorem merge_changed_iff (sd ld : List Value) :
    ((merge_data (.list sd) (.list ld)).2 = true
        ↔ sd.length < (merge_data (.list sd) (.list ld)).1.length)
    ∧ ((merge_data (.list sd) (.list ld)).2 = true
        ↔ ∃ p ∈ ld, keepLocal (server_names sd) p = true) := by
  rw [merge_data_eq]
  constructor
  · rw [Bool.not_eq_true', List.isEmpty_eq_false]
    constructor
    · intro h
      have := List.length_pos.mpr h
      simp only [List.length_append]
      omega
    · intro h
      apply List.length_pos.mp
      simp only [List.length_append] at h
      omega
  · simp only [Bool.not_eq_true', List.isEmpty_eq_false, ne_eq,
      List.filter_eq_nil_iff]
    push_neg
    simp

/-- C3: every entry of the merged result whose name lies in the remote
name-set is an entry of the remote input itself: local records whose
name is already present remotely are never appended. -/
theorem merge_remote_wins (sd ld : List Value) (v : Value)
    (hv : v ∈ (merge_data (.list sd) (.list ld)).1)
    (hn : (server_names sd).contains (v.get "name") = true) :
    v ∈ sd := by
  rw [merge_data_eq] at hv
  rcases List.mem_append.mp hv with h | h
  · exact h
  · have hmem : v.get "name" ∈ server_names sd := by simpa using hn
    have hk := List.of_mem_filter h
    simp [keepLocal] at hk
    exact absurd hmem hk.2

/-- C3, witness for `merge_remote_wins`: a local record sharing the name
of the remote record is dropped, and the only result entry with that
name is the remote record. -/
theorem merge_remote_wins_witness :
    (dupRecord ∈ (merge_data (.list [dupRecord])
        (.list [.dict [("name", .prim (.pstr "a")), ("completed", .prim (.pbool true))]])).1
      ∧ (server_names [dupRecord]).contains (dupRecord.get "name") = true)
    ∧ dupRecord ∈ [dupRecord] :=
  ⟨⟨by decide, by decide⟩,
   merge_remote_wins [dupRecord]
     [.dict [("name", .prim (.pstr "a")), ("completed", .prim (.pbool true))]]
     dupRecord (by decide) (by decide)⟩

/-- C4, counterexample: a non-record entry of the remote input (the
bare integer 42) appears unchanged in the merged result, so merge does
not discard non-record entries of both inputs. -/
theorem merge_nonrecord_remote_kept :
    merge_data (.list [.prim (.pint 42)]) (.list [])
      = ([.prim (.pint 42)], false) := by
  exact rfl

/-- C4, amended: merge discards non-record entries of the local input
only (every result entry is either a remote entry, kept as-is whether or
not it is a record, or a local dict), and a non-sequence input on either
side is treated as an empty sequence. -/
theorem merge_shape_coercion (sd ld : List Value) (rv lv : Value) :
    (∀ v ∈ (merge_data (.list sd) (.list ld)).1,
        v ∈ sd ∨ (v ∈ ld ∧ v.isDict = true))
    ∧ (rv.isList = false → merge_data rv lv = merge_data (.list []) lv)
    ∧ (lv.isList = false → merge_data rv lv = merge_data rv (.list [])) := by
  refine ⟨?_, ?_, ?_⟩
  · intro v hv
    rw [merge_data_eq] at hv
    rcases List.mem_append.mp hv with h | h
    · exact Or.inl h
    · refine Or.inr ⟨List.mem_of_mem_filter h, ?_⟩
      have hk := List.of_mem_filter h
      simp [keepLocal] at hk
      exact hk.1
  · intro h
    have h1 : rv.asPyList = Value.asPyList (.list []) := by
      cases rv <;> simp_all [Value.isList, Value.asPyList]
    unfold merge_data
    rw [h1]
  · intro h
    have h1 : lv.asPyList = Value.asPyList (.list []) := by
      cases lv <;> simp_all [Value.isList, Value.asPyList]
    unfold merge_data
    rw [h1]

/-- C4, witness for `merge_shape_coercion` at concrete inputs: the
result entry 42 is a remote entry, and dict/string inputs are coerced
to empty lists. -/
theorem merge_shape_coercion_witness :
    (∀ v ∈ (merge_data (.list [.prim (.pint 42)]) (.list [.prim (.pstr "junk")])).1,
        v ∈ [Value.prim (.pint 42)]
          ∨ (v ∈ [Value.prim (.pstr "junk")] ∧ v.isDict = true))
    ∧ ((Value.dict []).isList = false
        ∧ merge_data (.dict []) (.list [dupRecord])
            = merge_data (.list []) (.list [dupRecord]))
    ∧ ((Value.prim (.pstr "x")).isList = false
        ∧ merge_data (.list [dupRecord]) (.prim (.pstr "x"))
            = merge_data (.list [dupRecord]) (.list [])) :=
  ⟨(merge_shape_coercion [.prim (.pint 42)] [.prim (.pstr "junk")]
      (.dict []) (.prim (.pstr "x"))).1,
   ⟨by decide,
    (merge_shape_coercion [] [] (.dict []) (.list [dupRecord])).2.1 (by decide)⟩,
   ⟨by decide,
    (merge_shape_coercion [] [] (.list [dupRecord]) (.prim (.pstr "x"))).2.2
      (by decide)⟩⟩

/-- C5: when the fetch fails with a network failure or a timeout, the
working set becomes exactly the local cache contents (no merge is
applied), the status is Offline (Local Mode), and the cache file is
left untouched. -/
theorem load_offline_fallback (cache : FileState) (push : PushOutcome) :
    load_data .connFailure push cache
        = { projects := load_local_data cache, status := .offlineLocalMode,
            cache := cache }
    ∧ load_data .timeout push cache
        = { projects := load_local_data cache, status := .offlineLocalMode,
            cache := cache } := by
  exact ⟨rfl, rfl⟩

/-- C6, counterexample: a success response whose body parses as JSON
but is not a sequence of records (here the JSON object `{}`) does not
yield RemoteUnavailable: the run completes and Load emits Online
(Synced) — refuting the claim that every body not of the expected
structured shape takes the offline path. -/
theorem load_nonlist_body_online :
    (load_data_outcome (.okBody (.dict [])) .ok .absent).map (fun r => r.status)
      = some .onlineSynced := by
  exact rfl

/-- C6, amended: RemoteUnavailable (hence the offline local-cache path,
status Offline/LocalMode) arises exactly on connection failure,
timeout, non-success status, or a body that is not valid JSON.  A body
that parses as JSON — a sequence of records or not — never takes the
offline path: when the merge's name-set operations complete (every
record name hashable), Load emits Online (Synced); when a fetched or
cached record carries an unhashable list- or dict-valued name, Load
dies of an uncaught TypeError and emits no final status at all. -/
theorem load_remote_unavailable_cases (cache : FileState) (push : PushOutcome)
    (v : Value) :
    (load_data_outcome .connFailure push cache).map (fun r => r.status)
        = some .offlineLocalMode
    ∧ (load_data_outcome .timeout push cache).map (fun r => r.status)
        = some .offlineLocalMode
    ∧ (load_data_outcome .nonSuccessStatus push cache).map (fun r => r.status)
        = some .offlineLocalMode
    ∧ (load_data_outcome .invalidBody push cache).map (fun r => r.status)
        = some .offlineLocalMode
    ∧ (load_data_outcome (.okBody v) push cache).map (fun r => r.status)
        = (if merge_data_raises v (load_local_data cache)
           then none
           else some .onlineSynced) := by
  refine ⟨rfl, rfl, rfl, rfl, ?_⟩
  simp only [load_data_outcome]
  by_cases h : merge_data_raises v (load_local_data cache) = true
  · simp [h]
  · simp only [Bool.not_eq_true] at h
    simp only [h, Bool.false_eq_true, if_false, Option.map_some]
    simp only [load_data]
    split <;> rfl

/-- C7: reading the local cache fails closed: an absent, unreadable, or
invalid file yields the empty list, and a valid file yields its parsed
contents. -/
theorem load_local_data_fails_closed (v : Value) :
    load_local_data .absent = .list []
    ∧ load_local_data .unreadable = .list []
    ∧ load_local_data .invalidData = .list []
    ∧ load_local_data (.valid v) = v := by
  exact ⟨rfl, rfl, rfl, rfl⟩

/-- C8: writing a sequence of records to the local cache and reading it
back yields an equal sequence, in the same order. -/
theorem save_then_load_roundtrip (records : List Value) :
    load_local_data (save_local_data (.list records)) = .list records := by
  exact rfl

/-- C9: evaluating the code on a record missing the `completed` field.
The list display does show it as pending, but `generate_daily_report`
— whose completed-comprehension uses `p.get('completed', True)` — puts
its name among the completed tasks (as well as among the pending ones),
contradicting the default-false convention used everywhere else. -/
theorem missing_completed_misclassified :
    refresh_list (.list [reportRecord])
        = [("⏳", .prim (.pstr "Write spec"))]
    ∧ generate_daily_report [reportRecord]
        = ([.prim (.pstr "Write spec")], [.prim (.pstr "Write spec")]) := by
  exact ⟨rfl, rfl⟩

/-- C10: in a Load whose merge appended local records, if the forced
push fails (so `save_data` falls back to writing the merged working set
to the local cache), `load_data` still deletes the cache file
afterwards, leaving no persisted copy of the merged records. -/
theorem merged_push_fail_cache_deleted (sd : Value) (cache : FileState)
    (h : (merge_data sd (load_local_data cache)).2 = true) :
    save_data .fail (Value.list (merge_data sd (load_local_data cache)).1) cache
        = (.offlineSavedLocally,
           .valid (Value.list (merge_data sd (load_local_data cache)).1))
    ∧ (load_data (.okBody sd) .fail cache).cache = .absent := by
  refine ⟨rfl, ?_⟩
  simp only [load_data]
  split
  · rfl
  · simp_all

/-- C10, witness for `merged_push_fail_cache_deleted`: a cache holding
one local-only record merges into an empty remote list, the push fails,
and the cache file ends up deleted. -/
theorem merged_push_fail_cache_deleted_witness :
    ((merge_data (.list []) (load_local_data (.valid (.list [dupRecord])))).2 = true)
    ∧ (save_data .fail
          (Value.list (merge_data (.list [])
            (load_local_data (.valid (.list [dupRecord])))).1)
          (.valid (.list [dupRecord]))
        = (.offlineSavedLocally,
           .valid (Value.list (merge_data (.list [])
             (load_local_data (.valid (.list [dupRecord])))).1))
      ∧ (load_data (.okBody (.list [])) .fail (.valid (.list [dupRecord]))).cache
          = .absent) :=
  ⟨by decide,
   merged_push_fail_cache_deleted (.list []) (.valid (.list [dupRecord]))
     (by decide)⟩

end DeaconOS
